import Mathlib

/-!
Shallow embedding of the orbis_file_storage core: the metadata model
(`src/app/models.py`), the blob-store session (`src/backend/app/core/localstorage.py`),
the metadata repository (`src/app/repositories/file_meta_repository.py`), the file
repository (`src/app/repositories/file_repository.py`), the business service
(`src/app/core/file_holder_service.py` and `src/backend/app/services/file_holder_service.py`),
and the per-request unit of work (`src/app/core/dependencies.py`, `get_file_holder_service`).

Bytes are modelled as `List Nat`; on-disk directories and in-memory pending maps as
association lists keyed by the blob's name (the string form of the uuid); timestamps as
`Nat`.  Advisory file locks are not modelled: every claim here concerns a single
session, which in the source is single-threaded, and lock acquisition/release has no
effect on the disk contents or the metadata.  Failure of the database commit is
injected through a boolean parameter of the unit-of-work runner; errors raised by the
Python code become `Except` errors carrying the session state at the point of the
raise (in-memory mutations of ORM objects that precede a failed flush are discarded by
the enclosing transaction rollback, so the carried state keeps the pre-call rows).
-/

/-- A byte string: the contents of an uploaded file. -/
abbrev Bytes := List Nat

/-- Row of the `file_meta` table (`src/app/models.py`, class `FileMeta`).
Field order follows the source.  `uuid` is the string form of the UUID primary key;
`comment` and `updated_at` are nullable; every other column is NOT NULL
(SQLAlchemy derives nullability from the `Mapped` annotations). -/
structure FileMeta where
  uuid : String
  filename : String
  file_extension : String
  size : Nat
  path : String
  comment : Option String
  created_at : Nat
  updated_at : Option Nat
deriving DecidableEq, Repr

/-- Errors of the service and storage layers (`src/app/exceptions`,
`src/backend/app/exceptions`).  `handlerFailure` stands for an arbitrary exception
thrown by request code after the handler body ran. -/
inductive Err where
  | alreadyExists
  | notFound
  | blobMissing
  | metaStoreError
  | handlerFailure
deriving DecidableEq, Repr

/-- Association-list lookup: the first entry with the given key. -/
def alookup : List (String × Bytes) → String → Option Bytes
  | [], _ => none
  | e :: rest, k => if e.1 = k then some e.2 else alookup rest k

/-- Association-list insert-or-replace, keeping the position of an existing key
(the semantics of assignment into a Python `dict` and of overwriting a file). -/
def ainsert : List (String × Bytes) → String → Bytes → List (String × Bytes)
  | [], k, v => [(k, v)]
  | e :: rest, k, v => if e.1 = k then (k, v) :: rest else e :: ainsert rest k v

/-- Association-list erase (removing a file; a no-op when the key is absent). -/
def aerase : List (String × Bytes) → String → List (String × Bytes)
  | [], _ => []
  | e :: rest, k => if e.1 = k then aerase rest k else e :: aerase rest k

/-- The storage directory (`FILE_STORAGE_PATH`): committed blobs live under their
bare name `<id>`, staged blobs under `pending_<id>`.  The two name spaces are
disjoint, so they are kept as two maps; `.lock` side files are not modelled. -/
structure Storage where
  final : List (String × Bytes)
  staged : List (String × Bytes)
deriving DecidableEq, Repr

/-- In-memory state of `AsyncFileSession` (`src/backend/app/core/localstorage.py`):
the `_pending` dict of queued writes.  Held locks are not modelled. -/
structure AsyncFileSession where
  pending : List (String × Bytes)
deriving DecidableEq, Repr

/-- `AsyncFileSession.add`: queue a write in the pending map; no disk write. -/
def sessionAdd (s : AsyncFileSession) (file_bytes : Bytes) (file_name : String) :
    AsyncFileSession :=
  ⟨ainsert s.pending file_name file_bytes⟩

/-- `AsyncFileSession.flush`: write every pending entry to its staging file
`pending_<name>`. -/
def sessionFlush (s : AsyncFileSession) (d : Storage) : Storage :=
  s.pending.foldl (fun acc e => ⟨acc.final, ainsert acc.staged e.1 e.2⟩) d

/-- One iteration of the loop in `AsyncFileSession.commit`: write the pending bytes
to the staging file, remove the final file if it exists, then rename the staging
file to the final name. -/
def commitOne (d : Storage) (e : String × Bytes) : Storage :=
  let d1 : Storage := ⟨d.final, ainsert d.staged e.1 e.2⟩
  let d2 : Storage := ⟨aerase d1.final e.1, d1.staged⟩
  match alookup d2.staged e.1 with
  | some b => ⟨ainsert d2.final e.1 b, aerase d2.staged e.1⟩
  | none => d2

/-- `AsyncFileSession.commit`: promote every pending entry, then clear the pending
map (locks, not modelled, are released in the same `finally`). -/
def sessionCommit (s : AsyncFileSession) (d : Storage) : AsyncFileSession × Storage :=
  (⟨[]⟩, s.pending.foldl commitOne d)

/-- `AsyncFileSession.rollback`: remove the staging file of every pending entry if it
exists, then clear the pending map. -/
def sessionRollback (s : AsyncFileSession) (d : Storage) : AsyncFileSession × Storage :=
  (⟨[]⟩, s.pending.foldl (fun acc e => ⟨acc.final, aerase acc.staged e.1⟩) d)

/-- `AsyncFileSession.recover`: delete every `pending_*` orphan in the storage root. -/
def sessionRecover (d : Storage) : Storage :=
  ⟨d.final, []⟩

/-- `AsyncFileSession.get`: read the committed file `<root>/<name>`; `none` when the
file does not exist (the source raises). -/
def sessionGet (d : Storage) (file_name : String) : Option Bytes :=
  alookup d.final file_name

/-- `AsyncFileSession.delete`: remove the committed file immediately if present,
reporting whether it existed.  This happens at call time, not at commit. -/
def sessionDelete (d : Storage) (file_name : String) : Bool × Storage :=
  match alookup d.final file_name with
  | some _ => (true, ⟨aerase d.final file_name, d.staged⟩)
  | none => (false, d)

/-- `AsyncFileSession.list_files`: names of committed blobs (staging files and
`.lock` files are excluded by construction of `Storage`). -/
def sessionListFiles (d : Storage) : List String :=
  d.final.map Prod.fst

/-- The database session: the committed table contents and the current
transaction's view of them. -/
structure DbSession where
  committed : List FileMeta
  tx : List FileMeta
deriving DecidableEq, Repr

/-- Opening a transaction: the transaction's view starts at the committed rows. -/
def dbBegin (rows : List FileMeta) : DbSession :=
  ⟨rows, rows⟩

/-- `FileMetaRepository.get_by_id` (limit 1): first row with the given uuid. -/
def get_by_id (rows : List FileMeta) (file_id : String) : Option FileMeta :=
  rows.find? (fun m => m.uuid == file_id)

/-- `FileMetaRepository.get_by_path_filename_extension` (limit 1). -/
def get_by_path_filename_extension (rows : List FileMeta)
    (file_path filename file_extension : String) : Option FileMeta :=
  rows.find? (fun m =>
    m.path == file_path && m.filename == filename
      && m.file_extension == file_extension)

/-- One step of SQL `LIKE` matching, processing one pattern character against a
set of states, each state being the still-unmatched suffix of the target string:
`%` matches any sequence (every suffix of each state survives), `_` matches
exactly one character, and any other character matches itself literally. -/
def likeStep (p : Char) (states : List (List Char)) : List (List Char) :=
  if p = '%' then states.flatMap List.tails
  else if p = '_' then states.filterMap List.tail?
  else states.filterMap (fun s =>
    match s with
    | [] => none
    | c :: s' => if p == c then some s' else none)

/-- Run `LIKE` matching over a whole pattern, threading the state set. -/
def likeStates : List Char → List (List Char) → List (List Char)
  | [], states => states
  | p :: ps, states => likeStates ps (likeStep p states)

/-- SQL `LIKE`: the pattern matches the string when some run over the pattern
consumes the string completely. -/
def likeMatch (pattern s : List Char) : Bool :=
  (likeStates pattern [s]).any List.isEmpty

/-- `FileMetaRepository.get_by_path_startswith`: SQLAlchemy renders
`FileMeta.path.startswith(word)` as `path LIKE word || '%'` with autoescape off,
so `%` and `_` occurring inside `word` are live LIKE wildcards (no escape
character is in play: none is set and the callers' validated inputs cannot
contain one). -/
def get_by_path_startswith (rows : List FileMeta) (word : String) : List FileMeta :=
  rows.filter (fun m => likeMatch (word.data ++ ['%']) m.path.data)

/-- `FileMetaRepository.save`: insert a new row into the transaction. -/
def metaSave (rows : List FileMeta) (m : FileMeta) : List FileMeta :=
  rows ++ [m]

/-- `FileMetaRepository.delete`: delete the row with the given primary key from the
transaction. -/
def metaDelete (rows : List FileMeta) (m : FileMeta) : List FileMeta :=
  rows.filter (fun r => r.uuid != m.uuid)

/-- Combined per-request state: the database session, the blob session's in-memory
pending map, and the on-disk storage directory. -/
structure UoWState where
  db : DbSession
  fs : AsyncFileSession
  disk : Storage
deriving DecidableEq, Repr

/-- A service operation: acts on the combined state; on failure it raises, carrying
the state at the point of the raise. -/
abbrev ServiceM (α : Type) := UoWState → Except (Err × UoWState) (α × UoWState)

/-- Input schema `FileCreate` (`src/app/schemas/file.py`). -/
structure FileCreate where
  filename : String
  file_extension : String
  path : String
  size : Nat
  comment : Option String
deriving DecidableEq, Repr

/-- Input schema `FileUpdate` (`src/app/schemas/file.py`) under pydantic's
`exclude_unset` semantics: `none` means the field was absent from the request,
`some v` that it was given (with `some none` an explicit JSON `null`).
`file_extension` is not a field of `FileUpdate` and cannot be changed. -/
structure FileUpdate where
  filename : Option (Option String)
  path : Option (Option String)
  comment : Option (Option String)
deriving DecidableEq, Repr

/-- Whether `update.model_dump(exclude_unset=True)` is the empty dict. -/
def FileUpdate.isEmptyData (u : FileUpdate) : Bool :=
  u.filename.isNone && u.path.isNone && u.comment.isNone

/-- `FileHolderService.create_file` (`src/app/core/file_holder_service.py`):
reject when a row with the same `(path, filename, extension)` triple exists;
otherwise insert the metadata row (`size` taken from the schema object,
`created_at := now`, `updated_at := null`) and stage the blob under the fresh
uuid via `FileRepository.save` (= session `add` followed by `flush`).
The fresh uuid and the clock are passed in as parameters. -/
def create_file (file_data : Bytes) (file_create : FileCreate)
    (newUuid : String) (now : Nat) : ServiceM FileMeta := fun st =>
  if (get_by_path_filename_extension st.db.tx file_create.path file_create.filename
        file_create.file_extension).isSome then
    .error (.alreadyExists, st)
  else
    let file_meta : FileMeta :=
      ⟨newUuid, file_create.filename, file_create.file_extension, file_create.size,
        file_create.path, file_create.comment, now, none⟩
    let tx' := metaSave st.db.tx file_meta
    let fs' := sessionAdd st.fs file_data newUuid
    let disk' := sessionFlush fs' st.disk
    .ok (file_meta, ⟨⟨st.db.committed, tx'⟩, fs', disk'⟩)

/-- `post_file` (`src/app/api.py`): the HTTP handler builds the `FileCreate`
with the hardcoded form value `size=1` and hands the raw bytes to
`create_file`. -/
def post_file (filename file_extension path : String) (comment : Option String)
    (file_data : Bytes) (newUuid : String) (now : Nat) : ServiceM FileMeta :=
  create_file file_data ⟨filename, file_extension, path, 1, comment⟩ newUuid now

/-- `FileHolderService.get_file_by_id`: resolve the metadata row, then read the
committed blob named by its uuid. -/
def get_file_by_id (file_id : String) : ServiceM Bytes := fun st =>
  match get_by_id st.db.tx file_id with
  | none => .error (.notFound, st)
  | some m =>
    match sessionGet st.disk m.uuid with
    | none => .error (.blobMissing, st)
    | some b => .ok (b, st)

/-- `FileHolderService.delete_file`: resolve the metadata row (error if missing),
delete the blob through the session (which removes the file immediately), then
delete the row inside the transaction.  Returns true. -/
def delete_file (file_id : String) : ServiceM Bool := fun st =>
  match get_by_id st.db.tx file_id with
  | none => .error (.notFound, st)
  | some m =>
    let res := sessionDelete st.disk m.uuid
    let tx' := metaDelete st.db.tx m
    .ok (true, ⟨⟨st.db.committed, tx'⟩, st.fs, res.2⟩)

/-- A request whose handler fails from an injected exception after `delete_file`
already ran (used to examine what rollback can still undo). -/
def deleteThenFail (file_id : String) : ServiceM Bool := fun st =>
  match delete_file file_id st with
  | .ok (_, st') => .error (.handlerFailure, st')
  | .error e => .error e

/-- `FileMetaRepository.update`: apply the fields present in the change set to the
row, set `updated_at := now`, and flush.  The flush fails (`MetaStoreError`
wrapping the NOT NULL violation) when the change set explicitly nulls `filename`
or `path`, whose columns are NOT NULL; `comment` is nullable. -/
def applyChanges (m : FileMeta) (u : FileUpdate) (now : Nat) : Except Err FileMeta :=
  let f1 := match u.filename with | none => some m.filename | some v => v
  let p1 := match u.path with | none => some m.path | some v => v
  let c1 := match u.comment with | none => m.comment | some v => v
  match f1, p1 with
  | some f, some p =>
    .ok ⟨m.uuid, f, m.file_extension, m.size, p, c1, m.created_at, some now⟩
  | _, _ => .error .metaStoreError

/-- `FileHolderService.update_file_meta`: resolve the metadata row (error if
missing); an empty change set returns the row as-is; otherwise apply the change
set through the repository, replacing the row in the transaction.  No collision
check against other rows is performed. -/
def update_file_meta (file_id : String) (u : FileUpdate) (now : Nat) :
    ServiceM FileMeta := fun st =>
  match get_by_id st.db.tx file_id with
  | none => .error (.notFound, st)
  | some m =>
    if u.isEmptyData then .ok (m, st)
    else
      match applyChanges m u now with
      | .error e => .error (e, st)
      | .ok m' =>
        let tx' := st.db.tx.map (fun r => if r.uuid = file_id then m' else r)
        .ok (m', ⟨⟨st.db.committed, tx'⟩, st.fs, st.disk⟩)

/-- `FileHolderService.search_files_by_path`
(`src/backend/app/services/file_holder_service.py`): the empty string returns the
empty list; otherwise a `/` is appended when the last character is not `/`, and
the rows whose path starts with the result are returned. -/
def search_files_by_path (path_pre : String) (rows : List FileMeta) :
    List FileMeta :=
  if path_pre.length = 0 then []
  else
    let p := if path_pre.back ≠ '/' then path_pre ++ "/" else path_pre
    get_by_path_startswith rows p

/-- `FileRepository.delete_files_not_in_uuids`: snapshot the committed blob names,
then delete every blob whose name is not among the given uuids. -/
def delete_files_not_in_uuids (uuids : List String) (d : Storage) : Storage :=
  (sessionListFiles d).foldl
    (fun acc f => if uuids.contains f then acc else (sessionDelete acc f).2) d

/-- `FileHolderService.sync_storage_with_db`
(`src/backend/app/services/file_holder_service.py`): collect the uuids of all
metadata rows and delete the blobs not among them.  No metadata row is deleted. -/
def sync_storage_with_db : ServiceM Unit := fun st =>
  let uuids := st.db.tx.map FileMeta.uuid
  .ok ((), ⟨st.db, st.fs, delete_files_not_in_uuids uuids st.disk⟩)

/-- Commit/rollback events of one request, in the order they were performed. -/
inductive CommitEv where
  | metaCommit
  | blobCommit
  | metaCommitFail
  | metaRollback
  | blobRollback
deriving DecidableEq, Repr

/-- Outcome of one request run through the unit of work: the surfaced result, the
committed table rows, the storage directory, the blob session's final in-memory
state, and the trace of commit/rollback events. -/
structure RunResult (α : Type) where
  result : Except Err α
  db : List FileMeta
  disk : Storage
  fs : AsyncFileSession
  trace : List CommitEv

/-- `get_file_holder_service` (`src/app/core/dependencies.py`): per-request unit
of work.  A fresh blob session is created and `recover()` run; a database
transaction is opened; the handler runs; on handler success the database commits
first and the blob session commits second; if either the handler or the database
commit raises, the database rolls back, the blob session rolls back (discarding
pending staged files), and the error is surfaced.  `dbCommitOk` injects the
success or failure of the database commit. -/
def runUnitOfWork {α : Type} (handler : ServiceM α) (dbCommitOk : Bool)
    (rows : List FileMeta) (disk0 : Storage) : RunResult α :=
  let st0 : UoWState := ⟨dbBegin rows, ⟨[]⟩, sessionRecover disk0⟩
  match handler st0 with
  | .error (e, st) =>
    let r := sessionRollback st.fs st.disk
    ⟨.error e, st.db.committed, r.2, r.1, [.metaRollback, .blobRollback]⟩
  | .ok (a, st) =>
    if dbCommitOk then
      let c := sessionCommit st.fs st.disk
      ⟨.ok a, st.db.tx, c.2, c.1, [.metaCommit, .blobCommit]⟩
    else
      let r := sessionRollback st.fs st.disk
      ⟨.error .metaStoreError, st.db.committed, r.2, r.1,
        [.metaCommitFail, .metaRollback, .blobRollback]⟩

/-- Does a list of rows contain two distinct positions with the same
`(path, filename, extension)` triple? -/
def dupTriple : List FileMeta → Bool
  | [] => false
  | m :: rest =>
    rest.any (fun r =>
      r.path == m.path && r.filename == m.filename
        && r.file_extension == m.file_extension) || dupTriple rest

theorem alookup_ainsert_self (l : List (String × Bytes)) (k : String) (v : Bytes) :
    alookup (ainsert l k v) k = some v := by
  induction l with
  | nil => simp [ainsert, alookup]
  | cons e rest ih =>
    by_cases h : e.1 = k
    · simp [ainsert, alookup, h]
    · simp [ainsert, alookup, h, ih]

theorem alookup_aerase_self (l : List (String × Bytes)) (k : String) :
    alookup (aerase l k) k = none := by
  induction l with
  | nil => simp [aerase, alookup]
  | cons e rest ih =>
    by_cases h : e.1 = k
    · simp [aerase, h, ih]
    · simp [aerase, alookup, h, ih]

theorem rollbackDisk_final (p : List (String × Bytes)) (d : Storage) :
    (p.foldl (fun acc e => (⟨acc.final, aerase acc.staged e.1⟩ : Storage)) d).final
      = d.final := by
  induction p generalizing d with
  | nil => rfl
  | cons e rest ih => simpa using ih ⟨d.final, aerase d.staged e.1⟩

theorem find?_append_of_none {l1 l2 : List FileMeta} {p : FileMeta → Bool}
    (h : l1.find? p = none) : (l1 ++ l2).find? p = l2.find? p := by
  simp [List.find?_append, h]

theorem string_length_ne_zero {s : String} (h : s ≠ "") : ¬ s.length = 0 := by
  obtain ⟨l⟩ := s
  cases l with
  | nil => exact absurd rfl h
  | cons c cs => simp [String.length]

theorem likeStates_nil_states (pattern : List Char) : likeStates pattern [] = [] := by
  induction pattern with
  | nil => rfl
  | cons p ps ih => simp [likeStates, likeStep, ih]

theorem likeStates_append (w1 w2 : List Char) (states : List (List Char)) :
    likeStates (w1 ++ w2) states = likeStates w2 (likeStates w1 states) := by
  induction w1 generalizing states with
  | nil => rfl
  | cons p ps ih => simp [likeStates, ih]

theorem tails_any_isEmpty (l : List Char) : l.tails.any List.isEmpty = true := by
  induction l with
  | nil => rfl
  | cons c l' ih => simp [List.tails, ih]

theorem likeStates_literal (w : List Char) (s : List Char)
    (hw : ∀ c ∈ w, c ≠ '%' ∧ c ≠ '_') :
    likeStates w [s] = if w.isPrefixOf s then [s.drop w.length] else [] := by
  induction w generalizing s with
  | nil => simp [likeStates, List.isPrefixOf]
  | cons c w' ih =>
    have hc := hw c (by simp)
    have hw' : ∀ x ∈ w', x ≠ '%' ∧ x ≠ '_' := fun x hx => hw x (by simp [hx])
    cases s with
    | nil =>
      simp [likeStates, likeStep, hc.1, hc.2, List.isPrefixOf,
        likeStates_nil_states]
    | cons c' s' =>
      by_cases hcc : c = c'
      · subst hcc
        simp [likeStates, likeStep, hc.1, hc.2, List.isPrefixOf, ih s' hw']
      · simp [likeStates, likeStep, hc.1, hc.2, List.isPrefixOf, hcc,
          likeStates_nil_states]

theorem likeMatch_wildcard_free (w s : List Char)
    (hw : ∀ c ∈ w, c ≠ '%' ∧ c ≠ '_') :
    likeMatch (w ++ ['%']) s = w.isPrefixOf s := by
  rw [likeMatch, likeStates_append, likeStates_literal w s hw]
  by_cases h : w.isPrefixOf s
  · simp [h, likeStates, likeStep, tails_any_isEmpty]
  · simp [h, likeStates, likeStep]

theorem applyChanges_ok (m : FileMeta) (u : FileUpdate) (now : Nat) (m' : FileMeta)
    (h : applyChanges m u now = .ok m') :
    m'.updated_at = some now ∧ m'.uuid = m.uuid
  ∧ m'.file_extension = m.file_extension ∧ m'.size = m.size
  ∧ m'.created_at = m.created_at
  ∧ (u.filename = none → m'.filename = m.filename)
  ∧ (u.path = none → m'.path = m.path)
  ∧ (u.comment = none → m'.comment = m.comment)
  ∧ (∀ c, u.comment = some c → m'.comment = c) := by
  obtain ⟨uf, up, uc⟩ := u
  rcases uf with _ | (_ | f) <;> rcases up with _ | (_ | p) <;>
    simp [applyChanges] at h <;> (subst h; rcases uc with _ | c <;> simp)

/-- C1: when the request handler succeeds, `get_file_holder_service` commits the
database transaction first and the blob session second; if the database commit
raises, the blob session is rolled back (in-memory pending map discarded, no staged
file promoted, committed blobs untouched) and the error is surfaced, so no blob
promotion ever happens before the metadata commit. -/
theorem C1_commit_order {α : Type} (handler : ServiceM α) (b : Bool)
    (rows : List FileMeta) (disk0 : Storage) (a : α) (st : UoWState)
    (hok : handler ⟨dbBegin rows, ⟨[]⟩, sessionRecover disk0⟩ = .ok (a, st)) :
    (b = true → (runUnitOfWork handler b rows disk0).trace
        = [CommitEv.metaCommit, CommitEv.blobCommit]
      ∧ (runUnitOfWork handler b rows disk0).result = .ok a)
  ∧ (b = false → (runUnitOfWork handler b rows disk0).result = .error .metaStoreError
      ∧ (runUnitOfWork handler b rows disk0).fs.pending = []
      ∧ (runUnitOfWork handler b rows disk0).db = st.db.committed
      ∧ (runUnitOfWork handler b rows disk0).disk.final = st.disk.final
      ∧ CommitEv.blobCommit ∉ (runUnitOfWork handler b rows disk0).trace) := by
  constructor
  · rintro rfl
    simp [runUnitOfWork, hok]
  · rintro rfl
    refine ⟨?_, ?_, ?_, ?_, ?_⟩ <;>
      simp [runUnitOfWork, hok, sessionRollback, rollbackDisk_final]

/-- C2: `create_file` fails with `AlreadyExists` when a row with the same
`(path, filename, extension)` triple exists; for every create that fails (for any
reason — duplicate triple or a failing database commit) neither a metadata row nor
a blob is committed, and for every create that succeeds both are. -/
theorem C2_create_atomic (file_data : Bytes) (fc : FileCreate) (u : String)
    (now : Nat) (b : Bool) (rows : List FileMeta) (disk0 : Storage)
    (hfresh : alookup disk0.final u = none) :
    ((get_by_path_filename_extension rows fc.path fc.filename
          fc.file_extension).isSome = true →
        (runUnitOfWork (create_file file_data fc u now) b rows disk0).result
            = .error .alreadyExists
      ∧ (runUnitOfWork (create_file file_data fc u now) b rows disk0).db = rows
      ∧ alookup (runUnitOfWork (create_file file_data fc u now) b rows
            disk0).disk.final u = none)
  ∧ (get_by_path_filename_extension rows fc.path fc.filename fc.file_extension
        = none → b = true →
        (runUnitOfWork (create_file file_data fc u now) b rows disk0).result
            = .ok ⟨u, fc.filename, fc.file_extension, fc.size, fc.path,
                fc.comment, now, none⟩
      ∧ (runUnitOfWork (create_file file_data fc u now) b rows disk0).db
          = rows ++ [⟨u, fc.filename, fc.file_extension, fc.size, fc.path,
              fc.comment, now, none⟩]
      ∧ alookup (runUnitOfWork (create_file file_data fc u now) b rows
            disk0).disk.final u = some file_data)
  ∧ (b = false →
        (∀ x, (runUnitOfWork (create_file file_data fc u now) b rows disk0).result
            ≠ .ok x)
      ∧ (runUnitOfWork (create_file file_data fc u now) b rows disk0).db = rows
      ∧ alookup (runUnitOfWork (create_file file_data fc u now) b rows
            disk0).disk.final u = none) := by
  refine ⟨?_, ?_, ?_⟩
  · intro hc
    refine ⟨?_, ?_, ?_⟩ <;>
      simp [runUnitOfWork, create_file, dbBegin, sessionRecover, hc,
        sessionRollback, hfresh]
  · intro hc hb
    subst hb
    refine ⟨?_, ?_, ?_⟩ <;>
      simp [runUnitOfWork, create_file, dbBegin, sessionRecover, hc, metaSave,
        sessionAdd, sessionFlush, sessionCommit, commitOne, ainsert, alookup,
        alookup_ainsert_self]
  · rintro rfl
    cases hc : get_by_path_filename_extension rows fc.path fc.filename
        fc.file_extension with
    | some m =>
      refine ⟨?_, ?_, ?_⟩ <;>
        simp [runUnitOfWork, create_file, dbBegin, sessionRecover, hc,
          sessionRollback, hfresh]
    | none =>
      refine ⟨?_, ?_, ?_⟩ <;>
        simp [runUnitOfWork, create_file, dbBegin, sessionRecover, hc,
          sessionRollback, sessionAdd, sessionFlush, ainsert, aerase, alookup,
          hfresh]

/-- C3: evaluation of `sync_storage_with_db` at a store holding one metadata row
and no blob.  The run succeeds, yet the dangling metadata row survives: the ids on
the metadata side are `["aaa"]` while the blob side is empty, so
`ids(MetaStore) == ids(BlobStore)` does not hold after a successful sync — the
pass deletes blobs without rows but never rows without blobs. -/
theorem C3_sync_leaves_dangling_meta :
    (runUnitOfWork sync_storage_with_db true
        [⟨"aaa", "f", "txt", 1, "/a/", none, 0, none⟩] ⟨[], []⟩).result = .ok ()
  ∧ (runUnitOfWork sync_storage_with_db true
        [⟨"aaa", "f", "txt", 1, "/a/", none, 0, none⟩] ⟨[], []⟩).db.map
        FileMeta.uuid = ["aaa"]
  ∧ sessionListFiles (runUnitOfWork sync_storage_with_db true
        [⟨"aaa", "f", "txt", 1, "/a/", none, 0, none⟩] ⟨[], []⟩).disk = []
  ∧ (runUnitOfWork sync_storage_with_db true
        [⟨"aaa", "f", "txt", 1, "/a/", none, 0, none⟩] ⟨[], []⟩).db.map
        FileMeta.uuid
      ≠ sessionListFiles (runUnitOfWork sync_storage_with_db true
        [⟨"aaa", "f", "txt", 1, "/a/", none, 0, none⟩] ⟨[], []⟩).disk := by
  refine ⟨rfl, rfl, rfl, by decide⟩

/-- C4 counterexample: with one committed row `"aaa"` and its blob on disk, a
request that calls `delete_file "aaa"` and then fails leaves, after rollback, the
metadata row present but the blob already gone — the deletion was performed
immediately, not staged until commit, so the claim that rollback leaves both the
blob and the row present is false at this input. -/
theorem C4_delete_not_staged_counterexample :
    (runUnitOfWork (deleteThenFail "aaa") true
        [⟨"aaa", "f", "txt", 1, "/a/", none, 0, none⟩]
        ⟨[("aaa", [1, 2, 3])], []⟩).result = .error .handlerFailure
  ∧ (runUnitOfWork (deleteThenFail "aaa") true
        [⟨"aaa", "f", "txt", 1, "/a/", none, 0, none⟩]
        ⟨[("aaa", [1, 2, 3])], []⟩).db
      = [⟨"aaa", "f", "txt", 1, "/a/", none, 0, none⟩]
  ∧ alookup (runUnitOfWork (deleteThenFail "aaa") true
        [⟨"aaa", "f", "txt", 1, "/a/", none, 0, none⟩]
        ⟨[("aaa", [1, 2, 3])], []⟩).disk.final "aaa" = none
  ∧ alookup (runUnitOfWork (deleteThenFail "aaa") true
        [⟨"aaa", "f", "txt", 1, "/a/", none, 0, none⟩]
        ⟨[("aaa", [1, 2, 3])], []⟩).disk.final "aaa" ≠ some [1, 2, 3] := by
  refine ⟨rfl, rfl, rfl, by decide⟩

/-- C4 (amended): `delete_file(id)` removes the blob at `<root>/<id>` immediately
when called, not at commit time; if the request fails after `delete_file` ran, the
rollback restores the metadata row (the row deletion was uncommitted) but not the
blob, which is already gone from disk. -/
theorem C4_delete_immediate (rows : List FileMeta) (disk0 : Storage)
    (file_id : String) (m : FileMeta) (b : Bool)
    (hm : get_by_id rows file_id = some m) :
    (∀ x, (runUnitOfWork (deleteThenFail file_id) b rows disk0).result ≠ .ok x)
  ∧ (runUnitOfWork (deleteThenFail file_id) b rows disk0).db = rows
  ∧ alookup (runUnitOfWork (deleteThenFail file_id) b rows disk0).disk.final
      m.uuid = none := by
  cases hd : alookup disk0.final m.uuid with
  | some v =>
    refine ⟨?_, ?_, ?_⟩ <;>
      simp [runUnitOfWork, deleteThenFail, delete_file, dbBegin, sessionRecover,
        hm, sessionDelete, hd, sessionRollback, alookup_aerase_self]
  | none =>
    refine ⟨?_, ?_, ?_⟩ <;>
      simp [runUnitOfWork, deleteThenFail, delete_file, dbBegin, sessionRecover,
        hm, sessionDelete, hd, sessionRollback]

/-- C4 witness: the amended theorem applied at the concrete input of the
counterexample scenario (row `"aaa"` with blob bytes `[9]` on disk). -/
theorem C4_delete_immediate_witness :
    (∀ x, (runUnitOfWork (deleteThenFail "aaa") true
        [⟨"aaa", "f", "txt", 1, "/a/", none, 0, none⟩]
        ⟨[("aaa", [9])], []⟩).result ≠ .ok x)
  ∧ (runUnitOfWork (deleteThenFail "aaa") true
        [⟨"aaa", "f", "txt", 1, "/a/", none, 0, none⟩]
        ⟨[("aaa", [9])], []⟩).db
      = [⟨"aaa", "f", "txt", 1, "/a/", none, 0, none⟩]
  ∧ alookup (runUnitOfWork (deleteThenFail "aaa") true
        [⟨"aaa", "f", "txt", 1, "/a/", none, 0, none⟩]
        ⟨[("aaa", [9])], []⟩).disk.final "aaa" = none :=
  C4_delete_immediate [⟨"aaa", "f", "txt", 1, "/a/", none, 0, none⟩]
    ⟨[("aaa", [9])], []⟩ "aaa" ⟨"aaa", "f", "txt", 1, "/a/", none, 0, none⟩
    true rfl

/-- C5: evaluation of the HTTP handler `post_file` at a successful upload of the
5-byte body `"hello"`.  The stored and returned metadata carries `size = 1` — the
handler hardcodes `size=1` into the `FileCreate` it builds — not
`len(bytes) = 5`. -/
theorem C5_size_hardcoded_one :
    (runUnitOfWork (post_file "notes" "txt" "/a/" none [104, 101, 108, 108, 111]
        "u1" 0) true [] ⟨[], []⟩).result
      = .ok ⟨"u1", "notes", "txt", 1, "/a/", none, 0, none⟩
  ∧ ([104, 101, 108, 108, 111] : Bytes).length = 5
  ∧ (1 : Nat) ≠ 5 := by
  refine ⟨rfl, rfl, by decide⟩

/-- C6: round-trip — after a successful committed `create_file` of `file_data`
under a fresh uuid `u` whose triple is not already taken, a subsequent request
reading `get_file_by_id u` returns exactly `file_data`. -/
theorem C6_round_trip (file_data : Bytes) (fc : FileCreate) (u : String)
    (now : Nat) (rows : List FileMeta) (disk0 : Storage)
    (h1 : get_by_path_filename_extension rows fc.path fc.filename
        fc.file_extension = none)
    (h2 : ∀ m ∈ rows, m.uuid ≠ u) :
    (runUnitOfWork (get_file_by_id u) true
        (runUnitOfWork (create_file file_data fc u now) true rows disk0).db
        (runUnitOfWork (create_file file_data fc u now) true rows disk0).disk
      ).result = .ok file_data := by
  have hfind : rows.find? (fun m => m.uuid == u) = none :=
    List.find?_eq_none.mpr (by
      intro m hmem
      simpa using h2 m hmem)
  simp [runUnitOfWork, create_file, dbBegin, sessionRecover, h1, metaSave,
    sessionAdd, sessionFlush, sessionCommit, commitOne, ainsert, alookup,
    get_file_by_id, get_by_id, sessionGet, find?_append_of_none hfind,
    alookup_ainsert_self]

/-- C6 witness: the round-trip theorem applied at the concrete input of an empty
store, bytes `[1, 2]` and uuid `"u9"`. -/
theorem C6_round_trip_witness :
    (runUnitOfWork (get_file_by_id "u9") true
        (runUnitOfWork (create_file [1, 2] ⟨"f", "txt", "/a/", 1, none⟩ "u9" 3)
            true [] ⟨[], []⟩).db
        (runUnitOfWork (create_file [1, 2] ⟨"f", "txt", "/a/", 1, none⟩ "u9" 3)
            true [] ⟨[], []⟩).disk).result = .ok [1, 2] :=
  C6_round_trip [1, 2] ⟨"f", "txt", "/a/", 1, none⟩ "u9" 3 [] ⟨[], []⟩ rfl
    (by intro m hmem; simp at hmem)

/-- C7: evaluation of `update_file_meta` at two committed rows with distinct
triples `("/p/", "f", "txt")` and `("/q/", "f", "txt")`.  Renaming the second row
into the triple of the first succeeds and commits — no `AlreadyExists` is raised —
leaving two committed rows with the same `(path, filename, extension)` triple, so
the uniqueness invariant is not preserved by `update_file_meta`. -/
theorem C7_update_breaks_uniqueness :
    dupTriple [⟨"u1", "f", "txt", 1, "/p/", none, 0, none⟩,
        ⟨"u2", "f", "txt", 1, "/q/", none, 0, none⟩] = false
  ∧ (runUnitOfWork (update_file_meta "u2" ⟨none, some (some "/p/"), none⟩ 5) true
        [⟨"u1", "f", "txt", 1, "/p/", none, 0, none⟩,
          ⟨"u2", "f", "txt", 1, "/q/", none, 0, none⟩] ⟨[], []⟩).result
      = .ok ⟨"u2", "f", "txt", 1, "/p/", none, 0, some 5⟩
  ∧ dupTriple (runUnitOfWork (update_file_meta "u2" ⟨none, some (some "/p/"),
        none⟩ 5) true
        [⟨"u1", "f", "txt", 1, "/p/", none, 0, none⟩,
          ⟨"u2", "f", "txt", 1, "/q/", none, 0, none⟩] ⟨[], []⟩).db = true := by
  refine ⟨rfl, rfl, rfl⟩

/-- C8: `update_file_meta` with an empty change set returns the existing row
unchanged, leaves the whole state (hence `updated_at`) untouched; with a non-empty
change set every field absent from the change set keeps its existing value (the
never-updatable `uuid`, `file_extension`, `size`, `created_at` included) while
`updated_at` is set to the current time; `comment` set explicitly to null is
honoured, while explicitly nulling `filename` or `path` makes the flush fail, so
no field other than `comment` can be nulled through this operation. -/
theorem C8_update_semantics (file_id : String) (u : FileUpdate) (now : Nat)
    (st : UoWState) (m : FileMeta)
    (hm : get_by_id st.db.tx file_id = some m) :
    (u.isEmptyData = true → update_file_meta file_id u now st = .ok (m, st))
  ∧ (∀ m' st', update_file_meta file_id u now st = .ok (m', st') →
        u.isEmptyData = false →
        m'.updated_at = some now
      ∧ m'.uuid = m.uuid ∧ m'.file_extension = m.file_extension
      ∧ m'.size = m.size ∧ m'.created_at = m.created_at
      ∧ (u.filename = none → m'.filename = m.filename)
      ∧ (u.path = none → m'.path = m.path)
      ∧ (u.comment = none → m'.comment = m.comment)
      ∧ (∀ c, u.comment = some c → m'.comment = c))
  ∧ ((u.filename = some none ∨ u.path = some none) →
        update_file_meta file_id u now st = .error (.metaStoreError, st)) := by
  refine ⟨?_, ?_, ?_⟩
  · intro he
    simp [update_file_meta, hm, he]
  · intro m' st' hok hne
    rw [update_file_meta] at hok
    rw [hm] at hok
    simp [hne] at hok
    cases happ : applyChanges m u now with
    | error e => rw [happ] at hok; simp at hok
    | ok m2 =>
      rw [happ] at hok
      simp at hok
      obtain ⟨hm2, _⟩ := hok
      subst hm2
      exact applyChanges_ok m u now _ happ
  · intro hnull
    have hne : u.isEmptyData = false := by
      obtain ⟨uf, up, uc⟩ := u
      rcases hnull with h | h <;> simp at h <;> subst h <;>
        simp [FileUpdate.isEmptyData]
    have happ : applyChanges m u now = .error .metaStoreError := by
      obtain ⟨uf, up, uc⟩ := u
      rcases hnull with h | h <;> simp at h <;> subst h
      · simp [applyChanges]
      · rcases uf with _ | (_ | f) <;> simp [applyChanges]
    rw [update_file_meta]
    rw [hm]
    simp [hne, happ]

/-- C8 witness: the update theorem applied to an empty change set at a concrete
store with one row — the row and the whole state come back unchanged. -/
theorem C8_update_semantics_witness :
    update_file_meta "u1" ⟨none, none, none⟩ 7
        ⟨⟨[⟨"u1", "f", "txt", 1, "/a/", none, 0, none⟩],
            [⟨"u1", "f", "txt", 1, "/a/", none, 0, none⟩]⟩, ⟨[]⟩, ⟨[], []⟩⟩
      = .ok (⟨"u1", "f", "txt", 1, "/a/", none, 0, none⟩,
        ⟨⟨[⟨"u1", "f", "txt", 1, "/a/", none, 0, none⟩],
            [⟨"u1", "f", "txt", 1, "/a/", none, 0, none⟩]⟩, ⟨[]⟩, ⟨[], []⟩⟩) :=
  (C8_update_semantics "u1" ⟨none, none, none⟩ 7
      ⟨⟨[⟨"u1", "f", "txt", 1, "/a/", none, 0, none⟩],
          [⟨"u1", "f", "txt", 1, "/a/", none, 0, none⟩]⟩, ⟨[]⟩, ⟨[], []⟩⟩
      ⟨"u1", "f", "txt", 1, "/a/", none, 0, none⟩ rfl).1 rfl

/-- C9 counterexample: the search argument `"/a_"` (normalized `"/a_/"`) matches
a row at path `"/ab/"` — the underscore, permitted by the `FilePath` validation,
is a live single-character LIKE wildcard in the unescaped `path LIKE word || '%'`
the repository issues — although that path does not start with the normalized
argument, so "returns exactly the rows whose path starts with the normalized
argument" fails at this input. -/
theorem C9_like_wildcard_counterexample :
    ((⟨"u1", "f", "txt", 1, "/ab/", none, 0, none⟩ : FileMeta)
        ∈ search_files_by_path "/a_"
          [⟨"u1", "f", "txt", 1, "/ab/", none, 0, none⟩])
  ∧ (if ("/a_" : String).back ≠ '/' then "/a_" ++ "/"
        else "/a_").data.isPrefixOf
      (⟨"u1", "f", "txt", 1, "/ab/", none, 0, none⟩ : FileMeta).path.data
      = false := by
  refine ⟨by decide, by decide⟩

/-- C9 (amended): `search_files_by_path` returns the empty sequence for the empty
string; for a non-empty argument it normalizes it to end with `/` (appending one
when missing) and returns exactly the rows whose path matches the SQL pattern
`normalized ++ "%"` under LIKE semantics, `%` and `_` inside the argument being
live wildcards; whenever the normalized argument contains no wildcard character
this is exactly the set of rows whose path starts with it. -/
theorem C9_search_like_semantics (path_pre : String) (rows : List FileMeta) :
    search_files_by_path "" rows = []
  ∧ (path_pre ≠ "" → ∀ m, m ∈ search_files_by_path path_pre rows ↔
      m ∈ rows ∧ likeMatch ((if path_pre.back ≠ '/' then path_pre ++ "/"
          else path_pre).data ++ ['%']) m.path.data = true)
  ∧ (path_pre ≠ "" →
      (∀ c ∈ (if path_pre.back ≠ '/' then path_pre ++ "/" else path_pre).data,
          c ≠ '%' ∧ c ≠ '_') →
      ∀ m, m ∈ search_files_by_path path_pre rows ↔
        m ∈ rows ∧ (if path_pre.back ≠ '/' then path_pre ++ "/"
            else path_pre).data.isPrefixOf m.path.data = true) := by
  refine ⟨rfl, ?_, ?_⟩
  · intro h m
    have hl := string_length_ne_zero h
    simp only [search_files_by_path, if_neg hl, get_by_path_startswith,
      List.mem_filter]
  · intro h hw m
    have hl := string_length_ne_zero h
    simp only [search_files_by_path, if_neg hl, get_by_path_startswith,
      List.mem_filter, likeMatch_wildcard_free _ _ hw]

/-- C9 witness: the amended theorem applied at the wildcard-free argument `"/a"`
(normalized `"/a/"`) and a singleton row whose path is `"/a/b/"`. -/
theorem C9_search_like_semantics_witness :
    (⟨"u1", "f", "txt", 1, "/a/b/", none, 0, none⟩ : FileMeta)
        ∈ search_files_by_path "/a"
          [⟨"u1", "f", "txt", 1, "/a/b/", none, 0, none⟩] ↔
      (⟨"u1", "f", "txt", 1, "/a/b/", none, 0, none⟩ : FileMeta)
          ∈ [(⟨"u1", "f", "txt", 1, "/a/b/", none, 0, none⟩ : FileMeta)]
        ∧ (if ("/a" : String).back ≠ '/' then "/a" ++ "/"
            else "/a").data.isPrefixOf
            (⟨"u1", "f", "txt", 1, "/a/b/", none, 0, none⟩ : FileMeta).path.data
          = true :=
  (C9_search_like_semantics "/a"
      [⟨"u1", "f", "txt", 1, "/a/b/", none, 0, none⟩]).2.2 (by decide)
    (by decide) ⟨"u1", "f", "txt", 1, "/a/b/", none, 0, none⟩

/-- C10: `update_file_meta` performs no blob-store operation: whatever the call's
outcome, the storage directory (committed blobs and staging files alike) and the
blob session's pending map are exactly those of the input state. -/
theorem C10_update_no_blob_ops (file_id : String) (u : FileUpdate) (now : Nat)
    (st : UoWState) :
    (∀ m' st', update_file_meta file_id u now st = .ok (m', st') →
        st'.disk = st.disk ∧ st'.fs = st.fs)
  ∧ (∀ e st', update_file_meta file_id u now st = .error (e, st') →
        st'.disk = st.disk ∧ st'.fs = st.fs) := by
  constructor
  · intro m' st' h
    rw [update_file_meta] at h
    cases hg : get_by_id st.db.tx file_id with
    | none => rw [hg] at h; simp at h
    | some m =>
      rw [hg] at h
      by_cases he : u.isEmptyData
      · simp [he] at h
        rw [← h.2]
        exact ⟨rfl, rfl⟩
      · simp [he] at h
        cases happ : applyChanges m u now with
        | error e => rw [happ] at h; simp at h
        | ok m2 =>
          rw [happ] at h
          simp at h
          rw [← h.2]
          exact ⟨rfl, rfl⟩
  · intro e st' h
    rw [update_file_meta] at h
    cases hg : get_by_id st.db.tx file_id with
    | none =>
      rw [hg] at h
      simp at h
      rw [← h.2]
      exact ⟨rfl, rfl⟩
    | some m =>
      rw [hg] at h
      by_cases he : u.isEmptyData
      · simp [he] at h
      · simp [he] at h
        cases happ : applyChanges m u now with
        | error e2 =>
          rw [happ] at h
          simp at h
          rw [← h.2]
          exact ⟨rfl, rfl⟩
        | ok m2 => rw [happ] at h; simp at h

/-- C10 witness: the frame theorem applied at a successful concrete update (a
comment change over a one-row store with one unrelated blob on disk). -/
theorem C10_update_no_blob_ops_witness :
    (⟨⟨[⟨"u1", "f", "txt", 1, "/a/", none, 0, none⟩],
        [⟨"u1", "f", "txt", 1, "/a/", some "hi", 0, some 7⟩]⟩, ⟨[]⟩,
        ⟨[("x", [1])], []⟩⟩ : UoWState).disk
      = (⟨⟨[⟨"u1", "f", "txt", 1, "/a/", none, 0, none⟩],
          [⟨"u1", "f", "txt", 1, "/a/", none, 0, none⟩]⟩, ⟨[]⟩,
          ⟨[("x", [1])], []⟩⟩ : UoWState).disk
  ∧ (⟨⟨[⟨"u1", "f", "txt", 1, "/a/", none, 0, none⟩],
        [⟨"u1", "f", "txt", 1, "/a/", some "hi", 0, some 7⟩]⟩, ⟨[]⟩,
        ⟨[("x", [1])], []⟩⟩ : UoWState).fs
      = (⟨⟨[⟨"u1", "f", "txt", 1, "/a/", none, 0, none⟩],
          [⟨"u1", "f", "txt", 1, "/a/", none, 0, none⟩]⟩, ⟨[]⟩,
          ⟨[("x", [1])], []⟩⟩ : UoWState).fs :=
  (C10_update_no_blob_ops "u1" ⟨none, none, some (some "hi")⟩ 7
      ⟨⟨[⟨"u1", "f", "txt", 1, "/a/", none, 0, none⟩],
          [⟨"u1", "f", "txt", 1, "/a/", none, 0, none⟩]⟩, ⟨[]⟩,
          ⟨[("x", [1])], []⟩⟩).1
    ⟨"u1", "f", "txt", 1, "/a/", some "hi", 0, some 7⟩
    ⟨⟨[⟨"u1", "f", "txt", 1, "/a/", none, 0, none⟩],
        [⟨"u1", "f", "txt", 1, "/a/", some "hi", 0, some 7⟩]⟩, ⟨[]⟩,
        ⟨[("x", [1])], []⟩⟩ rfl

/-- C1 witness: the commit-order theorem applied at a concrete successful create
handler with the database commit failing — the error surfaces, the pending map is
discarded, the committed rows and blobs are untouched, and no blob commit event
occurs. -/
theorem C1_commit_order_witness :
    (runUnitOfWork (create_file [1, 2] ⟨"f", "txt", "/a/", 1, none⟩ "u1" 0) false
        [] ⟨[], []⟩).result = .error .metaStoreError
  ∧ (runUnitOfWork (create_file [1, 2] ⟨"f", "txt", "/a/", 1, none⟩ "u1" 0) false
        [] ⟨[], []⟩).fs.pending = []
  ∧ (runUnitOfWork (create_file [1, 2] ⟨"f", "txt", "/a/", 1, none⟩ "u1" 0) false
        [] ⟨[], []⟩).db
      = (⟨⟨[], [⟨"u1", "f", "txt", 1, "/a/", none, 0, none⟩]⟩,
          ⟨[("u1", [1, 2])]⟩, ⟨[], [("u1", [1, 2])]⟩⟩ : UoWState).db.committed
  ∧ (runUnitOfWork (create_file [1, 2] ⟨"f", "txt", "/a/", 1, none⟩ "u1" 0) false
        [] ⟨[], []⟩).disk.final
      = (⟨⟨[], [⟨"u1", "f", "txt", 1, "/a/", none, 0, none⟩]⟩,
          ⟨[("u1", [1, 2])]⟩, ⟨[], [("u1", [1, 2])]⟩⟩ : UoWState).disk.final
  ∧ CommitEv.blobCommit ∉ (runUnitOfWork (create_file [1, 2]
        ⟨"f", "txt", "/a/", 1, none⟩ "u1" 0) false [] ⟨[], []⟩).trace :=
  (C1_commit_order (create_file [1, 2] ⟨"f", "txt", "/a/", 1, none⟩ "u1" 0) false
      [] ⟨[], []⟩ ⟨"u1", "f", "txt", 1, "/a/", none, 0, none⟩
      ⟨⟨[], [⟨"u1", "f", "txt", 1, "/a/", none, 0, none⟩]⟩,
        ⟨[("u1", [1, 2])]⟩, ⟨[], [("u1", [1, 2])]⟩⟩ rfl).2 rfl

/-- C2 witness: the atomic-create theorem applied at a concrete successful create
over an empty store — the row and the committed blob both exist afterwards. -/
theorem C2_create_atomic_witness :
    (runUnitOfWork (create_file [1, 2] ⟨"f", "txt", "/a/", 1, none⟩ "u9" 3) true
        [] ⟨[], []⟩).result
      = .ok ⟨"u9", "f", "txt", 1, "/a/", none, 3, none⟩
  ∧ (runUnitOfWork (create_file [1, 2] ⟨"f", "txt", "/a/", 1, none⟩ "u9" 3) true
        [] ⟨[], []⟩).db
      = [] ++ [⟨"u9", "f", "txt", 1, "/a/", none, 3, none⟩]
  ∧ alookup (runUnitOfWork (create_file [1, 2] ⟨"f", "txt", "/a/", 1, none⟩ "u9"
        3) true [] ⟨[], []⟩).disk.final "u9" = some [1, 2] :=
  (C2_create_atomic [1, 2] ⟨"f", "txt", "/a/", 1, none⟩ "u9" 3 true [] ⟨[], []⟩
      rfl).2.1 rfl rfl
